import Mathlib

/-!
Verification of the schema-compiler pipeline over the elasticsearch-specification
corpus excerpt.

The corpus (under `src/specification/`) is pure declarative data: each file
declares the shape of one API operation (path parameters, query parameters,
body fields, documentation tags).  We embed that data faithfully below, one
Lean value per declaration, keeping names, optionality markers (`?`),
`@server_default` annotations, documentation tag lines and source line numbers
exactly as written in the TypeScript files.

The compiler pipeline itself (Type Reference Resolver, Schema Normalizer,
Annotation/Metadata Extractor, Validation Engine, Emitter) is not part of the
excerpt; those stages are modelled from the specification document and are
marked `Modelled from the spec:` in their doc comments.
-/

namespace SchemaCompiler

/-! ## Data model: raw declarations, exactly as written in the corpus -/

/-- Semantic category of a parameter: one of the three sections of a request
declaration (`path_parts`, `query_parameters`, `body`). -/
inductive Category where
  | path
  | query
  | body
deriving DecidableEq, Repr

/-- One declared parameter or body field of an operation, as written in the
corpus: its name, the source line of its declaration, the list of type names
it references (a union type references several, an array type references its
element type), whether it carries the explicit `?` optionality marker, its
`@server_default` annotation token when one is present, and the first line of
its documentation comment (empty when it has none). -/
structure RawParam where
  name : String
  line : Nat
  typeRefs : List String
  optional : Bool
  serverDefault : Option String
  doc : String
deriving DecidableEq, Repr

/-- One of the three sections of a request declaration: absent from the file,
or present (with or without a `?` marker on the section itself) holding a list
of parameter declarations. -/
inductive ParamSection where
  | absent
  | present (optionalMarker : Bool) (params : List RawParam)
deriving DecidableEq, Repr

/-- A structured documentation tag line: `@marker tok1 tok2 ...`. -/
structure Tag where
  marker : String
  tokens : List String
deriving DecidableEq, Repr

/-- One raw operation declaration: its `@rest_spec_name`, the interface it
extends, its documentation tag lines and its three parameter sections. -/
structure RawDecl where
  name : String
  extendsRef : String
  docTags : List Tag
  path_parts : ParamSection
  query_parameters : ParamSection
  body : ParamSection
deriving DecidableEq, Repr

/-! ## The corpus

Transcribed from
`src/specification/synonyms/put_synonym_rule/SynonymRulePutRequest.ts`,
`src/specification/ingest/delete_ip_location_database/DeleteIpLocationDatabaseRequest.ts`
and `src/specification/cat/templates/CatTemplatesRequest.ts`.  Line numbers are
the source lines of each declaration. -/

namespace SynonymsPutSynonymRule

/-- The `synonyms.put_synonym_rule` request declaration
(`SynonymRulePutRequest.ts`, lines 23 to 47). -/
def Request : RawDecl :=
  { name := "synonyms.put_synonym_rule"
    extendsRef := "RequestBase"
    docTags :=
      [ ⟨"rest_spec_name", ["synonyms.put_synonym_rule"]⟩
      , ⟨"availability", ["stack", "since=8.10.0", "stability=stable"]⟩
      , ⟨"availability", ["serverless", "stability=stable", "visibility=public"]⟩ ]
    path_parts := ParamSection.present false
      [ { name := "set_id", line := 34, typeRefs := ["Id"], optional := false,
          serverDefault := Option.none,
          doc := "The id of the synonym set to be updated with the synonym rule" }
      , { name := "rule_id", line := 39, typeRefs := ["Id"], optional := false,
          serverDefault := Option.none,
          doc := "The id of the synonym rule to be updated or created" } ]
    query_parameters := ParamSection.absent
    body := ParamSection.present false
      [ { name := "synonyms", line := 45, typeRefs := ["SynonymString"],
          optional := false, serverDefault := Option.none, doc := "" } ] }

end SynonymsPutSynonymRule

namespace TextStructureFindMessageStructure

/-- The `text_structure.find_message_structure` request declaration
(`SynonymRulePutRequest.ts`, second declaration in the file, lines 72 to 209). -/
def Request : RawDecl :=
  { name := "text_structure.find_message_structure"
    extendsRef := "RequestBase"
    docTags :=
      [ ⟨"rest_spec_name", ["text_structure.find_message_structure"]⟩
      , ⟨"availability", ["stack", "stability=stable", "visibility=public"]⟩
      , ⟨"cluster_privileges", ["monitor_text_structure"]⟩
      , ⟨"doc_id", ["find-message-structure"]⟩ ]
    path_parts := ParamSection.absent
    query_parameters := ParamSection.present false
      [ { name := "column_names", line := 99, typeRefs := ["string"],
          optional := true, serverDefault := Option.none,
          doc := "If the format is `delimited`, you can specify the column names in a comma-separated list." }
      , { name := "delimiter", line := 107, typeRefs := ["string"],
          optional := true, serverDefault := Option.none,
          doc := "If you the format is `delimited`, you can specify the character used to delimit the values in each row." }
      , { name := "ecs_compatibility", line := 115, typeRefs := ["EcsCompatibilityType"],
          optional := true, serverDefault := Option.some "disabled",
          doc := "The mode of compatibility with ECS compliant Grok patterns." }
      , { name := "explain", line := 120, typeRefs := ["boolean"],
          optional := true, serverDefault := Option.some "false",
          doc := "If this parameter is set to true, the response includes a field named `explanation`, which is an array of strings that indicate how the structure finder produced its result." }
      , { name := "format", line := 126, typeRefs := ["FormatType"],
          optional := true, serverDefault := Option.none,
          doc := "The high level structure of the text." }
      , { name := "grok_pattern", line := 133, typeRefs := ["GrokPattern"],
          optional := true, serverDefault := Option.none,
          doc := "If the format is `semi_structured_text`, you can specify a Grok pattern that is used to extract fields from every message in the text." }
      , { name := "quote", line := 140, typeRefs := ["string"],
          optional := true, serverDefault := Option.none,
          doc := "If the format is `delimited`, you can specify the character used to quote the values in each row if they contain newlines or the delimiter character." }
      , { name := "should_trim_fields", line := 146, typeRefs := ["boolean"],
          optional := true, serverDefault := Option.none,
          doc := "If the format is `delimited`, you can specify whether values between delimiters should have whitespace trimmed from them." }
      , { name := "timeout", line := 152, typeRefs := ["Duration"],
          optional := true, serverDefault := Option.some "25s",
          doc := "The maximum amount of time that the structure analysis can take." }
      , { name := "timestamp_field", line := 165, typeRefs := ["Field"],
          optional := true, serverDefault := Option.none,
          doc := "The name of the field that contains the primary timestamp of each record in the text." }
      , { name := "timestamp_format", line := 202, typeRefs := ["string"],
          optional := true, serverDefault := Option.none,
          doc := "The Java time format of the timestamp field in the text." } ]
    body := ParamSection.present false
      [ { name := "messages", line := 208, typeRefs := ["string"],
          optional := false, serverDefault := Option.none,
          doc := "The list of messages you want to analyze." } ] }

end TextStructureFindMessageStructure

namespace IngestDeleteIpLocationDatabase

/-- The `ingest.delete_ip_location_database` request declaration
(`DeleteIpLocationDatabaseRequest.ts`, lines 24 to 48). -/
def Request : RawDecl :=
  { name := "ingest.delete_ip_location_database"
    extendsRef := "RequestBase"
    docTags :=
      [ ⟨"rest_spec_name", ["ingest.delete_ip_location_database"]⟩
      , ⟨"availability", ["stack", "since=8.15.0", "stability=stable"]⟩
      , ⟨"availability", ["serverless", "visibility=private"]⟩ ]
    path_parts := ParamSection.present false
      [ { name := "id", line := 35, typeRefs := ["Ids"], optional := false,
          serverDefault := Option.none,
          doc := "A comma-separated list of IP location database configurations to delete" } ]
    query_parameters := ParamSection.present false
      [ { name := "master_timeout", line := 42, typeRefs := ["Duration"],
          optional := true, serverDefault := Option.some "30s",
          doc := "Period to wait for a connection to the master node." }
      , { name := "timeout", line := 46, typeRefs := ["Duration"],
          optional := true, serverDefault := Option.some "30s",
          doc := "Period to wait for a response. If no response is received before the timeout expires, the request fails and returns an error." } ]
    body := ParamSection.absent }

end IngestDeleteIpLocationDatabase

namespace Mget

/-- The `mget` request declaration (`DeleteIpLocationDatabaseRequest.ts`,
second declaration in the file, lines 68 to 94).  All three sections carry the
`?` marker on the section itself.  The `// default: true` and
`// default: false` line comments on `realtime` and `refresh` are plain code
comments, not `@server_default` annotations, so those parameters carry no
default annotation. -/
def MultiGetRequest : RawDecl :=
  { name := "mget"
    extendsRef := "RequestBase"
    docTags :=
      [ ⟨"rest_spec_name", ["mget"]⟩
      , ⟨"since", ["0.0.0"]⟩
      , ⟨"stability", ["stable"]⟩
      , ⟨"class_serializer", ["MultiGetRequestFormatter"]⟩ ]
    path_parts := ParamSection.present true
      [ { name := "index", line := 76, typeRefs := ["IndexName"], optional := true,
          serverDefault := Option.none, doc := "" }
      , { name := "type", line := 77, typeRefs := ["Type"], optional := true,
          serverDefault := Option.none, doc := "" } ]
    query_parameters := ParamSection.present true
      [ { name := "preference", line := 80, typeRefs := ["string"], optional := true,
          serverDefault := Option.none, doc := "" }
      , { name := "realtime", line := 81, typeRefs := ["boolean"], optional := true,
          serverDefault := Option.none, doc := "" }
      , { name := "refresh", line := 82, typeRefs := ["boolean"], optional := true,
          serverDefault := Option.none, doc := "" }
      , { name := "routing", line := 83, typeRefs := ["Routing"], optional := true,
          serverDefault := Option.none, doc := "" }
      , { name := "source_enabled", line := 84, typeRefs := ["boolean"], optional := true,
          serverDefault := Option.none, doc := "" }
      , { name := "_source", line := 85, typeRefs := ["boolean", "Fields"], optional := true,
          serverDefault := Option.none, doc := "" }
      , { name := "_source_excludes", line := 86, typeRefs := ["Fields"], optional := true,
          serverDefault := Option.none, doc := "" }
      , { name := "_source_includes", line := 87, typeRefs := ["Fields"], optional := true,
          serverDefault := Option.none, doc := "" }
      , { name := "stored_fields", line := 88, typeRefs := ["Fields"], optional := true,
          serverDefault := Option.none, doc := "" } ]
    body := ParamSection.present true
      [ { name := "docs", line := 91, typeRefs := ["MultiGetOperation"], optional := true,
          serverDefault := Option.none, doc := "" }
      , { name := "ids", line := 92, typeRefs := ["MultiGetId"], optional := true,
          serverDefault := Option.none, doc := "" } ] }

/-- The fields of `class MultiGetOperation` (`DeleteIpLocationDatabaseRequest.ts`,
lines 96 to 106). -/
def MultiGetOperationFields : List RawParam :=
  [ { name := "can_be_flattened", line := 97, typeRefs := ["boolean"], optional := true,
      serverDefault := Option.none, doc := "" }
  , { name := "_id", line := 98, typeRefs := ["MultiGetId"], optional := false,
      serverDefault := Option.none, doc := "" }
  , { name := "_index", line := 99, typeRefs := ["IndexName"], optional := true,
      serverDefault := Option.none, doc := "" }
  , { name := "routing", line := 100, typeRefs := ["Routing"], optional := true,
      serverDefault := Option.none, doc := "" }
  , { name := "_source", line := 101, typeRefs := ["boolean", "Fields", "SourceFilter"],
      optional := true, serverDefault := Option.none, doc := "" }
  , { name := "stored_fields", line := 102, typeRefs := ["Fields"], optional := true,
      serverDefault := Option.none, doc := "" }
  , { name := "_type", line := 103, typeRefs := ["Type"], optional := true,
      serverDefault := Option.none, doc := "" }
  , { name := "version", line := 104, typeRefs := ["VersionNumber"], optional := true,
      serverDefault := Option.none, doc := "" }
  , { name := "version_type", line := 105, typeRefs := ["VersionType"], optional := true,
      serverDefault := Option.none, doc := "" } ]

/-- The variants of the alias `type MultiGetId = string | integer`
(`DeleteIpLocationDatabaseRequest.ts`, line 108). -/
def MultiGetIdVariants : List String := ["string", "integer"]

end Mget

namespace CatTemplates

/-- The `cat.templates` request declaration (`CatTemplatesRequest.ts`,
lines 23 to 51). -/
def Request : RawDecl :=
  { name := "cat.templates"
    extendsRef := "CatRequestBase"
    docTags :=
      [ ⟨"rest_spec_name", ["cat.templates"]⟩
      , ⟨"availability", ["stack", "since=5.2.0", "stability=stable"]⟩
      , ⟨"availability", ["serverless", "stability=stable", "visibility=private"]⟩
      , ⟨"doc_id", ["cat-templates"]⟩
      , ⟨"cluster_privileges", ["monitor"]⟩ ]
    path_parts := ParamSection.present false
      [ { name := "name", line := 39, typeRefs := ["Name"], optional := true,
          serverDefault := Option.none,
          doc := "The name of the template to return." } ]
    query_parameters := ParamSection.present false
      [ { name := "local", line := 49, typeRefs := ["boolean"], optional := true,
          serverDefault := Option.some "false",
          doc := "If `true`, the request computes the list of selected nodes from the" } ]
    body := ParamSection.absent }

end CatTemplates

/-- The five operation declarations of the corpus excerpt. -/
def corpusDecls : List RawDecl :=
  [ SynonymsPutSynonymRule.Request
  , TextStructureFindMessageStructure.Request
  , IngestDeleteIpLocationDatabase.Request
  , Mget.MultiGetRequest
  , CatTemplates.Request ]

/-! ## Type Reference Resolver -/

/-- A concrete type definition in the corpus: a builtin scalar, a shared type
from one of the common modules, an object type with fields, or an alias for a
union of other type names. -/
inductive TypeDef where
  | builtin
  | shared
  | object (fields : List RawParam)
  | alias (variants : List String)
deriving DecidableEq, Repr

/-- The builtin scalar types of the declaration language. -/
def builtinDefs : List (String × TypeDef) :=
  [("string", TypeDef.builtin), ("boolean", TypeDef.builtin), ("integer", TypeDef.builtin)]

/-- Modelled from the spec: the shared type definitions live in the common
modules of the corpus (`@_types/Base`, `@_types/common`, `@_types/Time`,
`synonyms/_types/SynonymRule`, `text_structure/_types/Structure`,
`@cat/_types/CatBase`), which are outside the excerpt.  By the closed-world
input constraint of the Resolver, every shared name imported or referenced by
the excerpt is defined in one of those modules. -/
def sharedDefs : List (String × TypeDef) :=
  [ ("RequestBase", TypeDef.shared), ("CatRequestBase", TypeDef.shared)
  , ("Id", TypeDef.shared), ("Ids", TypeDef.shared), ("Name", TypeDef.shared)
  , ("Duration", TypeDef.shared), ("Field", TypeDef.shared), ("Fields", TypeDef.shared)
  , ("GrokPattern", TypeDef.shared), ("IndexName", TypeDef.shared)
  , ("Routing", TypeDef.shared), ("SourceFilter", TypeDef.shared)
  , ("VersionNumber", TypeDef.shared), ("VersionType", TypeDef.shared)
  , ("Type", TypeDef.shared), ("SynonymString", TypeDef.shared)
  , ("EcsCompatibilityType", TypeDef.shared), ("FormatType", TypeDef.shared) ]

/-- The type definitions declared inside the excerpt itself
(`DeleteIpLocationDatabaseRequest.ts`, lines 96 to 108). -/
def localDefs : List (String × TypeDef) :=
  [ ("MultiGetOperation", TypeDef.object Mget.MultiGetOperationFields)
  , ("MultiGetId", TypeDef.alias Mget.MultiGetIdVariants) ]

/-- Modelled from the spec: the Resolver builds one mapping from type name to
concrete type definition for the whole corpus, in a single pass, before any
per-operation stage runs. -/
def typeTable : List (String × TypeDef) := builtinDefs ++ sharedDefs ++ localDefs

/-- Looks a type name up in the resolved type table. -/
def lookupType : List (String × TypeDef) → String → Option TypeDef
  | [], _ => Option.none
  | (k, d) :: rest, n => if k = n then Option.some d else lookupType rest n

/-- One use of a type reference: the operation (or type) that owns it, the
field path inside it, and the referenced type name. -/
structure TypeRefUse where
  owner : String
  fieldPath : String
  tyName : String
deriving DecidableEq, Repr

/-- All type references made by a list of parameters, tagged with their owner
and section name. -/
def paramRefs (owner : String) (sectionName : String) (ps : List RawParam) : List TypeRefUse :=
  ps.flatMap (fun p => p.typeRefs.map (fun t => ⟨owner, sectionName ++ "." ++ p.name, t⟩))

/-- Modelled from the spec: a section that is absent from the declaration is
treated as an empty parameter set, never as a failure. -/
def sectionParams : ParamSection → List RawParam
  | ParamSection.absent => []
  | ParamSection.present _ ps => ps

/-- All type references made by one operation declaration: the interface it
extends plus every reference of every parameter and body field. -/
def opReferences (d : RawDecl) : List TypeRefUse :=
  ⟨d.name, "extends", d.extendsRef⟩ ::
    (paramRefs d.name "path_parts" (sectionParams d.path_parts)
      ++ paramRefs d.name "query_parameters" (sectionParams d.query_parameters)
      ++ paramRefs d.name "body" (sectionParams d.body))

/-- The type references made from inside the type definitions of the excerpt:
the fields of `MultiGetOperation` and the variants of `MultiGetId`. -/
def typeDefReferences : List TypeRefUse :=
  paramRefs "MultiGetOperation" "fields" Mget.MultiGetOperationFields
    ++ Mget.MultiGetIdVariants.map (fun t => ⟨"MultiGetId", "alias", t⟩)

/-- Every type reference used anywhere in the corpus excerpt. -/
def corpusReferences : List TypeRefUse :=
  corpusDecls.flatMap opReferences ++ typeDefReferences

/-- Reports one unresolved type reference: the operation, the field path and
the missing type name. -/
structure UnresolvedTypeError where
  op : String
  fieldPath : String
  missing : String
deriving DecidableEq, Repr

/-- Modelled from the spec: the Resolver resolves every reference in one pass;
a reference whose name has no definition produces an `UnresolvedTypeError`
naming the operation, the field path and the missing type name, and resolution
continues with the remaining references, so one run reports every unresolved
reference. -/
def resolveAll (table : List (String × TypeDef)) :
    List TypeRefUse → List (TypeRefUse × TypeDef) × List UnresolvedTypeError
  | [] => ([], [])
  | r :: rs =>
    let rest := resolveAll table rs
    match lookupType table r.tyName with
    | Option.some d => ((r, d) :: rest.1, rest.2)
    | Option.none => (rest.1, ⟨r.owner, r.fieldPath, r.tyName⟩ :: rest.2)

/-! ## Schema Normalizer -/

/-- The default value recorded in the IR for a parameter: none when the
declaration carries no `@server_default` annotation, a boolean for the
annotation tokens `true` and `false`, and the raw token otherwise. -/
inductive IRDefault where
  | none
  | bool (b : Bool)
  | str (s : String)
deriving DecidableEq, Repr

/-- Modelled from the spec: the IR default of a parameter is the explicitly
annotated value when one exists, else none; for a boolean annotation the
recorded value is the boolean itself, not a string and not null. -/
def parseDefault : Option String → IRDefault
  | Option.none => IRDefault.none
  | Option.some t =>
    if t = "true" then IRDefault.bool true
    else if t = "false" then IRDefault.bool false
    else IRDefault.str t

/-- One parameter of the normalized IR. -/
structure IRParam where
  name : String
  line : Nat
  category : Category
  typeRefs : List String
  required : Bool
  defaultValue : IRDefault
  doc : String
deriving DecidableEq, Repr

/-- The normalized intermediate representation of one operation. -/
structure IR where
  name : String
  extendsRef : String
  params : List IRParam
deriving DecidableEq, Repr

/-- Modelled from the spec: the Normalizer determines for each parameter the
semantic category, marks it required exactly when its declaration carries no
explicit optionality marker, records the explicitly annotated default value
(else none) and keeps its documentation line. -/
def normalizeParam (c : Category) (p : RawParam) : IRParam :=
  { name := p.name
    line := p.line
    category := c
    typeRefs := p.typeRefs
    required := !p.optional
    defaultValue := parseDefault p.serverDefault
    doc := p.doc }

/-- Modelled from the spec: the Normalizer converts one raw operation
declaration into its IR, a pure transform; an absent section contributes the
empty parameter set. -/
def normalize (d : RawDecl) : IR :=
  { name := d.name
    extendsRef := d.extendsRef
    params :=
      (sectionParams d.path_parts).map (normalizeParam Category.path)
        ++ (sectionParams d.query_parameters).map (normalizeParam Category.query)
        ++ (sectionParams d.body).map (normalizeParam Category.body) }

/-- Finds the IR parameter with the given category and name. -/
def findParam (ir : IR) (c : Category) (n : String) : Option IRParam :=
  ir.params.find? (fun p => decide (p.category = c) && decide (p.name = n))

/-! ## Annotation/Metadata Extractor -/

/-- A deployment flavor.  The corpus spells the self-managed flavor `stack`
and the managed-cloud flavor `serverless`. -/
inductive Flavor where
  | selfManaged
  | managedCloud
deriving DecidableEq, Repr

/-- Parses a flavor token of an `@availability` tag: `stack` is the
self-managed flavor and `serverless` the managed-cloud flavor; anything else
is unknown. -/
def parseFlavor (s : String) : Option Flavor :=
  if s = "stack" then Option.some Flavor.selfManaged
  else if s = "serverless" then Option.some Flavor.managedCloud
  else Option.none

/-- The closed set of known stability tokens. -/
def stabilityTokens : List String := ["stable", "experimental", "deprecated"]

/-- One availability record of an operation: the flavor token as written in
the tag, and its `since`, `stability` and `visibility` values when present. -/
structure AvailabilityRecord where
  flavorRaw : String
  since : Option String
  stability : Option String
  visibility : Option String
deriving DecidableEq, Repr

/-- Splits a token at its first `=` sign into a key/value pair; a token with
no `=` is not a key/value token. -/
def breakEq : List Char → Option (List Char × List Char)
  | [] => Option.none
  | c :: cs =>
    if c = '=' then Option.some ([], cs)
    else (breakEq cs).map (fun p => (c :: p.1, p.2))

/-- Parses one space-separated token of a tag as a `key=value` pair. -/
def parseKV (t : String) : Option (String × String) :=
  (breakEq t.data).map (fun p => (String.mk p.1, String.mk p.2))

/-- Returns the value of the first `key=value` token with the given key. -/
def kvLookup (key : String) : List String → Option String
  | [] => Option.none
  | t :: ts =>
    match parseKV t with
    | Option.some (k, v) => if k = key then Option.some v else kvLookup key ts
    | Option.none => kvLookup key ts

/-- Modelled from the spec: the first token of an `@availability` tag is the
flavor; the remaining space-separated `key=value` tokens give the version,
stability and visibility values. -/
def mkAvailRecord : List String → AvailabilityRecord
  | [] => { flavorRaw := "", since := Option.none, stability := Option.none,
            visibility := Option.none }
  | fl :: kvs =>
    { flavorRaw := fl
      since := kvLookup "since" kvs
      stability := kvLookup "stability" kvs
      visibility := kvLookup "visibility" kvs }

/-- The per-operation metadata record accumulated by the Metadata Extractor. -/
structure Metadata where
  restSpecName : Option String
  availability : List AvailabilityRecord
  stability : Option String
  since : Option String
  docId : Option String
  privileges : List String
deriving DecidableEq, Repr

/-- The empty metadata record. -/
def initMetadata : Metadata :=
  { restSpecName := Option.none, availability := [], stability := Option.none,
    since := Option.none, docId := Option.none, privileges := [] }

/-- The recognized documentation tag markers. -/
def recognizedMarkers : List String :=
  ["rest_spec_name", "availability", "stability", "since", "doc_id", "cluster_privileges"]

/-- Modelled from the spec: applies one documentation tag line to the metadata
record.  An `@availability` tag is appended to the availability list, never
overwriting earlier records; a line whose marker is not recognized is ignored. -/
def applyTag (m : Metadata) (t : Tag) : Metadata :=
  if t.marker = "rest_spec_name" then { m with restSpecName := t.tokens.head? }
  else if t.marker = "availability" then
    { m with availability := m.availability ++ [mkAvailRecord t.tokens] }
  else if t.marker = "stability" then { m with stability := t.tokens.head? }
  else if t.marker = "since" then { m with since := t.tokens.head? }
  else if t.marker = "doc_id" then { m with docId := t.tokens.head? }
  else if t.marker = "cluster_privileges" then
    { m with privileges := m.privileges ++ t.tokens }
  else m

/-- Modelled from the spec: the Metadata Extractor folds the tag lines, in
order, into a metadata record. -/
def extractFrom (m : Metadata) : List Tag → Metadata
  | [] => m
  | t :: ts => extractFrom (applyTag m t) ts

/-- Extracts the metadata record of one operation from its tag lines. -/
def extractMetadata (tags : List Tag) : Metadata := extractFrom initMetadata tags

/-- The availability records contributed by a list of tag lines: one record
per `@availability` tag, in order. -/
def availRecordsOf (tags : List Tag) : List AvailabilityRecord :=
  tags.filterMap (fun t =>
    if t.marker = "availability" then Option.some (mkAvailRecord t.tokens) else Option.none)

/-! ## Validation Engine -/

/-- A validation violation, one constructor per error of the taxonomy that the
claims about this excerpt exercise. -/
inductive Violation where
  | unresolvedType (op : String) (fieldPath : String) (missing : String)
  | duplicateParameter (op : String) (c : Category) (paramName : String)
      (firstLine : Nat) (secondLine : Nat)
  | invalidDefaultValue (op : String) (paramName : String)
  | unknownFlavor (op : String) (flavorRaw : String)
  | unknownStability (op : String) (stabilityRaw : String)
  | missingMetadata (op : String) (what : String)
deriving DecidableEq, Repr

/-- The parameter name of a duplicate-parameter violation, none for any other
violation. -/
def Violation.dupName : Violation → Option String
  | Violation.duplicateParameter _ _ n _ _ => Option.some n
  | _ => Option.none

/-- Modelled from the spec: the duplicate-parameter check of one category.
For each distinct name declared more than once in the category it produces
exactly one `duplicateParameter` violation referencing the source lines of the
first two declarations of that name. -/
def dupErrorsFor (op : String) (c : Category) (ps : List RawParam) : List Violation :=
  (ps.map RawParam.name).dedup.filterMap (fun n =>
    match ps.filter (fun p => decide (p.name = n)) with
    | p :: q :: _ => Option.some (Violation.duplicateParameter op c n p.line q.line)
    | _ => Option.none)

/-- Modelled from the spec: a default value declared for a boolean-typed field
must be exactly true, false or absent; any other token is an
`invalidDefaultValue` violation. -/
def defaultErrors (ir : IR) : List Violation :=
  ir.params.filterMap (fun p =>
    if p.typeRefs = ["boolean"] then
      match p.defaultValue with
      | IRDefault.str _ => Option.some (Violation.invalidDefaultValue ir.name p.name)
      | _ => Option.none
    else Option.none)

/-- Modelled from the spec: every availability record must carry a known
flavor from the closed set and, when present, a known stability value from the
closed set; every record is checked, so the whole violation list is returned. -/
def availErrors (op : String) : List AvailabilityRecord → List Violation
  | [] => []
  | r :: rs =>
    (if (parseFlavor r.flavorRaw).isNone then [Violation.unknownFlavor op r.flavorRaw] else [])
      ++ (match r.stability with
          | Option.some s =>
            if s ∈ stabilityTokens then [] else [Violation.unknownStability op s]
          | Option.none => [])
      ++ availErrors op rs

/-- Modelled from the spec: a missing required tag (the `@rest_spec_name`
family name) is a `missingMetadata` violation. -/
def metadataErrors (op : String) (m : Metadata) : List Violation :=
  if m.restSpecName = Option.none then [Violation.missingMetadata op "rest_spec_name"] else []

/-- Converts the unresolved-reference reports of the Resolver into violations. -/
def unresolvedViolations (errs : List UnresolvedTypeError) : List Violation :=
  errs.map (fun e => Violation.unresolvedType e.op e.fieldPath e.missing)

/-- Modelled from the spec: the Validation Engine evaluates every check on the
whole operation and returns the full violation list; it never stops at the
first failure. -/
def validateOp (table : List (String × TypeDef)) (d : RawDecl) : List Violation :=
  dupErrorsFor d.name Category.path (sectionParams d.path_parts)
    ++ dupErrorsFor d.name Category.query (sectionParams d.query_parameters)
    ++ dupErrorsFor d.name Category.body (sectionParams d.body)
    ++ unresolvedViolations (resolveAll table (opReferences d)).2
    ++ defaultErrors (normalize d)
    ++ availErrors d.name (extractMetadata d.docTags).availability
    ++ metadataErrors d.name (extractMetadata d.docTags)

/-! ## Emitter -/

/-- An Emitter variant: one pluggable backend per target artifact kind. -/
inductive Variant where
  | clientCode
  | docPage
deriving DecidableEq, Repr

/-- Renders one IR parameter as a typed signature fragment. -/
def renderParamSig (p : IRParam) : String :=
  p.name ++ (if p.required then ": " else "?: ") ++ String.intercalate " | " p.typeRefs

/-- Modelled from the spec: the Emitter renders one validated Operation IR
into a textual artifact, a pure function of the IR and the variant. -/
def renderOperation (ir : IR) (v : Variant) : String :=
  match v with
  | Variant.clientCode =>
    "function " ++ ir.name ++ "(" ++
      String.intercalate ", " (ir.params.map renderParamSig) ++ ")"
  | Variant.docPage =>
    "# " ++ ir.name ++ "\n" ++
      String.intercalate "\n" (ir.params.map (fun p => "- " ++ p.name ++ ": " ++ p.doc))

/-- Modelled from the spec: the Emitter writes its artifact to a caller-owned
output sink and returns the sink together with the emitted bytes. -/
def emitTo (sink : List String) (ir : IR) (v : Variant) : List String × String :=
  (sink ++ [renderOperation ir v], renderOperation ir v)

/-- Modelled from the spec: the per-operation pipeline: normalize, extract
metadata, validate against the resolved type table, and emit only when the
violation list is empty. -/
def pipeline (table : List (String × TypeDef)) (d : RawDecl) : Except (List Violation) String :=
  match validateOp table d with
  | [] => Except.ok (renderOperation (normalize d) Variant.clientCode)
  | e :: es => Except.error (e :: es)

/-! ## Helper lemmas -/

/-- Any availability record with an unknown flavor token contributes an
`unknownFlavor` violation to the availability check of its operation. -/
lemma availErrors_flavor_mem (op : String) (recs : List AvailabilityRecord)
    (r : AvailabilityRecord) (hr : r ∈ recs) (hf : parseFlavor r.flavorRaw = Option.none) :
    Violation.unknownFlavor op r.flavorRaw ∈ availErrors op recs := by
  induction recs with
  | nil => cases hr
  | cons a as ih =>
    rcases List.mem_cons.mp hr with h | h
    · subst h
      simp [availErrors, hf]
    · simp only [availErrors, List.mem_append]
      exact Or.inr (ih h)

/-- Any availability record with an unknown stability token contributes an
`unknownStability` violation to the availability check of its operation. -/
lemma availErrors_stability_mem (op : String) (recs : List AvailabilityRecord)
    (r : AvailabilityRecord) (s : String) (hr : r ∈ recs)
    (hs : r.stability = Option.some s) (hns : s ∉ stabilityTokens) :
    Violation.unknownStability op s ∈ availErrors op recs := by
  induction recs with
  | nil => cases hr
  | cons a as ih =>
    rcases List.mem_cons.mp hr with h | h
    · subst h
      simp [availErrors, hs, hns]
    · simp only [availErrors, List.mem_append]
      exact Or.inr (ih h)

/-- The error component of `resolveAll` is exactly one error per reference
whose name is missing from the table, in reference order. -/
lemma resolveAll_errors_eq (table : List (String × TypeDef)) (refs : List TypeRefUse) :
    (resolveAll table refs).2
      = (refs.filter (fun r => (lookupType table r.tyName).isNone)).map
          (fun r => UnresolvedTypeError.mk r.owner r.fieldPath r.tyName) := by
  induction refs with
  | nil => rfl
  | cons r rs ih =>
    cases h : lookupType table r.tyName with
    | none => simp [resolveAll, h, List.filter_cons, ih]
    | some d => simp [resolveAll, h, List.filter_cons, ih]

/-- Filtering a `filterMap` image by a key that identifies the preimage: when
the source list has no duplicates, contains `a`, and `f a = some b`, the only
image element whose key is `a` is `b`. -/
lemma filterMap_key_filter {α β : Type} [DecidableEq α] [DecidableEq β]
    (f : α → Option β) (key : β → Option α)
    (hkey : ∀ a b, f a = Option.some b → key b = Option.some a)
    (l : List α) (hnd : l.Nodup) (a : α) (ha : a ∈ l) (b : β)
    (hb : f a = Option.some b) :
    (l.filterMap f).filter (fun x => decide (key x = Option.some a)) = [b] := by
  induction l with
  | nil => cases ha
  | cons c cs ih =>
    rw [List.nodup_cons] at hnd
    rcases List.mem_cons.mp ha with h | h
    · subst h
      rw [List.filterMap_cons, hb, List.filter_cons]
      have hkb : key b = Option.some a := hkey a b hb
      rw [hkb]
      simp only [decide_eq_true_eq, if_pos rfl]
      have htail : (cs.filterMap f).filter (fun x => decide (key x = Option.some a)) = [] := by
        rw [List.filter_eq_nil_iff]
        intro x hx
        obtain ⟨a', ha', hfa'⟩ := List.mem_filterMap.mp hx
        have : key x = Option.some a' := hkey a' x hfa'
        simp only [this, decide_eq_true_eq, Option.some.injEq]
        intro hcontr
        exact hnd.1 (hcontr ▸ ha')
      rw [htail]
      simp
    · have hac : a ≠ c := fun hac => hnd.1 (hac ▸ h)
      rw [List.filterMap_cons]
      cases hc : f c with
      | none => exact ih hnd.2 h
      | some b' =>
        rw [List.filter_cons]
        have hkb' : key b' = Option.some c := hkey c b' hc
        rw [hkb']
        simp only [Option.some.injEq, decide_eq_true_eq]
        rw [if_neg (fun hcontr => hac hcontr.symm)]
        exact ih hnd.2 h

/-- A tag whose marker is not in the recognized vocabulary leaves the metadata
record unchanged. -/
lemma applyTag_unrecognized (m : Metadata) (t : Tag)
    (h : decide (t.marker ∈ recognizedMarkers) = false) : applyTag m t = m := by
  simp only [recognizedMarkers, List.mem_cons, List.not_mem_nil, or_false,
    decide_eq_false_iff_not, not_or] at h
  obtain ⟨h1, h2, h3, h4, h5, h6⟩ := h
  simp [applyTag, h1, h2, h3, h4, h5, h6]

/-- Folding tag lines into a metadata record appends one availability record
per `@availability` tag, in order, to the records already accumulated. -/
lemma extractFrom_availability (m : Metadata) (tags : List Tag) :
    (extractFrom m tags).availability = m.availability ++ availRecordsOf tags := by
  induction tags generalizing m with
  | nil => simp [extractFrom, availRecordsOf]
  | cons t ts ih =>
    rw [extractFrom, ih]
    unfold applyTag availRecordsOf
    rw [List.filterMap_cons]
    split_ifs <;> simp_all [availRecordsOf]

/-- Folding tag lines into a metadata record ignores every line whose marker
is not in the recognized vocabulary. -/
lemma extractFrom_filter (m : Metadata) (tags : List Tag) :
    extractFrom m tags
      = extractFrom m (tags.filter (fun t => decide (t.marker ∈ recognizedMarkers))) := by
  induction tags generalizing m with
  | nil => rfl
  | cons t ts ih =>
    rw [List.filter_cons]
    cases h : decide (t.marker ∈ recognizedMarkers) with
    | true => rw [if_pos (by simp [h]), extractFrom, extractFrom, ih]
    | false =>
      rw [if_neg (by simp [of_decide_eq_false h]), extractFrom,
        applyTag_unrecognized m t h, ih]

/-! ## Demonstration inputs used by witnesses -/

/-- A one-entry type table for exercising the Resolver on unresolved names. -/
def demoTable : List (String × TypeDef) := [("A", TypeDef.builtin)]

/-- A reference list with two unresolved references, exercising that a single
Resolver run reports every unresolved reference, not only the first. -/
def demoRefs : List TypeRefUse :=
  [ ⟨"op_demo", "query_parameters.x", "B"⟩
  , ⟨"op_demo", "query_parameters.y", "C"⟩ ]

/-- A query-parameter list with two parameters both named `timeout`, the
duplicate-name example of the specification. -/
def demoDupParams : List RawParam :=
  [ { name := "timeout", line := 10, typeRefs := ["Duration"], optional := true,
      serverDefault := Option.none, doc := "" }
  , { name := "size", line := 11, typeRefs := ["integer"], optional := true,
      serverDefault := Option.none, doc := "" }
  , { name := "timeout", line := 12, typeRefs := ["Duration"], optional := true,
      serverDefault := Option.none, doc := "" } ]

/-- An availability record with a flavor token and a stability token outside
the closed sets. -/
def demoBadRecord : AvailabilityRecord :=
  { flavorRaw := "cloud", since := Option.none, stability := Option.some "beta",
    visibility := Option.none }

/-! ## Claims -/

/-- C1: every TypeReference used by any parameter or body field of any
operation of the corpus, and every type name referenced anywhere in the
corpus, appears as a key of the type table produced by the Resolver stage:
resolution is total on this corpus. -/
theorem c1_resolution_total :
    ∀ r ∈ corpusReferences, (lookupType typeTable r.tyName).isSome = true := by
  decide

/-- Witness for C1 at the `boolean` reference of the query
parameter `local` of `cat.templates`. -/
theorem c1_resolution_total_witness :
    (⟨"cat.templates", "query_parameters.local", "boolean"⟩ : TypeRefUse) ∈ corpusReferences
      ∧ (lookupType typeTable "boolean").isSome = true :=
  ⟨by decide,
    c1_resolution_total ⟨"cat.templates", "query_parameters.local", "boolean"⟩ (by decide)⟩

/-- C2: every availability record extracted from any operation of the corpus
carries a flavor from the closed set (self-managed, spelled `stack`, or
managed-cloud, spelled `serverless`) and, when present, a stability value from
the closed set of stability tokens; the Validation Engine reports a violation
for any record whose flavor or stability falls outside these sets. -/
theorem c2_availability_closed_sets :
    (∀ d ∈ corpusDecls, ∀ r ∈ (extractMetadata d.docTags).availability,
        (parseFlavor r.flavorRaw).isSome = true
          ∧ r.stability.all (fun s => decide (s ∈ stabilityTokens)) = true)
      ∧ (∀ (op : String) (recs : List AvailabilityRecord) (r : AvailabilityRecord),
          r ∈ recs → parseFlavor r.flavorRaw = Option.none →
            Violation.unknownFlavor op r.flavorRaw ∈ availErrors op recs)
      ∧ (∀ (op : String) (recs : List AvailabilityRecord) (r : AvailabilityRecord) (s : String),
          r ∈ recs → r.stability = Option.some s → s ∉ stabilityTokens →
            Violation.unknownStability op s ∈ availErrors op recs) :=
  ⟨by decide, availErrors_flavor_mem, availErrors_stability_mem⟩

/-- Witness for C2: the first availability record of
`synonyms.put_synonym_rule` has a known flavor, and a record with flavor
`cloud` and stability `beta` is reported by the availability check. -/
theorem c2_availability_closed_sets_witness :
    (SynonymsPutSynonymRule.Request ∈ corpusDecls
        ∧ ({ flavorRaw := "stack", since := Option.some "8.10.0",
             stability := Option.some "stable", visibility := Option.none } : AvailabilityRecord)
            ∈ (extractMetadata SynonymsPutSynonymRule.Request.docTags).availability
        ∧ (parseFlavor "stack").isSome = true)
      ∧ Violation.unknownFlavor "op_demo" "cloud" ∈ availErrors "op_demo" [demoBadRecord]
      ∧ Violation.unknownStability "op_demo" "beta" ∈ availErrors "op_demo" [demoBadRecord] := by
  refine ⟨⟨by decide, by decide, ?_⟩, ?_, ?_⟩
  · exact (c2_availability_closed_sets.1 SynonymsPutSynonymRule.Request (by decide)
      { flavorRaw := "stack", since := Option.some "8.10.0",
        stability := Option.some "stable", visibility := Option.none } (by decide)).1
  · exact c2_availability_closed_sets.2.1 "op_demo" [demoBadRecord] demoBadRecord
      (by decide) (by decide)
  · exact c2_availability_closed_sets.2.2 "op_demo" [demoBadRecord] demoBadRecord "beta"
      (by decide) (by decide) (by decide)

/-- C3: the Resolver reports, for every reference to a name with no definition,
an `UnresolvedTypeError` naming the exact operation, field path and missing
type name, and it continues past failures: the error list of one run is
exactly one error per unresolved reference, so a single run surfaces every
unresolved reference rather than only the first. -/
theorem c3_unresolved_all_reported :
    (∀ (table : List (String × TypeDef)) (refs : List TypeRefUse),
        (resolveAll table refs).2
          = (refs.filter (fun r => (lookupType table r.tyName).isNone)).map
              (fun r => UnresolvedTypeError.mk r.owner r.fieldPath r.tyName))
      ∧ (∀ (table : List (String × TypeDef)) (refs : List TypeRefUse) (r : TypeRefUse),
          r ∈ refs → lookupType table r.tyName = Option.none →
            UnresolvedTypeError.mk r.owner r.fieldPath r.tyName ∈ (resolveAll table refs).2) := by
  refine ⟨resolveAll_errors_eq, fun table refs r hr hl => ?_⟩
  rw [resolveAll_errors_eq]
  exact List.mem_map.mpr ⟨r, List.mem_filter.mpr ⟨hr, by simp [hl]⟩, rfl⟩

/-- Witness for C3: with a table defining only `A`, the second of two
unresolved references is still reported. -/
theorem c3_unresolved_all_reported_witness :
    (⟨"op_demo", "query_parameters.y", "C"⟩ : TypeRefUse) ∈ demoRefs
      ∧ lookupType demoTable "C" = Option.none
      ∧ (⟨"op_demo", "query_parameters.y", "C"⟩ : UnresolvedTypeError)
          ∈ (resolveAll demoTable demoRefs).2 :=
  ⟨by decide, by decide,
    c3_unresolved_all_reported.2 demoTable demoRefs ⟨"op_demo", "query_parameters.y", "C"⟩
      (by decide) (by decide)⟩

/-- C4: a declaration with two same-named parameters in one category yields
exactly one `duplicateParameter` violation for that name, referencing both
declaration locations; and on the present corpus, whose per-category parameter
names are pairwise distinct, the Validation Engine produces no
`duplicateParameter` violation at all. -/
theorem c4_duplicate_parameter_errors :
    (∀ (op : String) (c : Category) (ps : List RawParam) (n : String) (p q : RawParam),
        ps.filter (fun x => decide (x.name = n)) = [p, q] →
          (dupErrorsFor op c ps).filter (fun e => decide (e.dupName = Option.some n))
            = [Violation.duplicateParameter op c n p.line q.line])
      ∧ (∀ d ∈ corpusDecls,
          (validateOp typeTable d).filter (fun e => (Violation.dupName e).isSome) = []) := by
  constructor
  · intro op c ps n p q hfilter
    have hp : p ∈ ps.filter (fun x => decide (x.name = n)) := by
      rw [hfilter]; exact List.mem_cons_self _ _
    have hpn : p.name = n := by
      have := List.of_mem_filter hp
      simpa using this
    have hnmem : n ∈ (ps.map RawParam.name).dedup :=
      List.mem_dedup.mpr (List.mem_map.mpr ⟨p, List.mem_of_mem_filter hp, hpn⟩)
    unfold dupErrorsFor
    refine filterMap_key_filter _ Violation.dupName ?_ _ (List.nodup_dedup _) n hnmem _ ?_
    · intro a b hab
      rcases hl : ps.filter (fun x => decide (x.name = a)) with _ | ⟨p1, _ | ⟨q1, rest2⟩⟩ <;>
        rw [hl] at hab
      · exact absurd hab (by simp)
      · exact absurd hab (by simp)
      · obtain rfl : Violation.duplicateParameter op c a p1.line q1.line = b := by
          simpa using hab
        rfl
    · rw [hfilter]
  · decide

/-- Witness for C4: the duplicated `timeout` query parameter produces exactly
one violation referencing lines 10 and 12, and `cat.templates` produces none. -/
theorem c4_duplicate_parameter_errors_witness :
    (demoDupParams.filter (fun x => decide (x.name = "timeout"))
        = [ ⟨"timeout", 10, ["Duration"], true, Option.none, ""⟩
          , ⟨"timeout", 12, ["Duration"], true, Option.none, ""⟩ ]
      ∧ (dupErrorsFor "op_demo" Category.query demoDupParams).filter
            (fun e => decide (e.dupName = Option.some "timeout"))
          = [Violation.duplicateParameter "op_demo" Category.query "timeout" 10 12])
      ∧ CatTemplates.Request ∈ corpusDecls
      ∧ (validateOp typeTable CatTemplates.Request).filter
          (fun e => (Violation.dupName e).isSome) = [] :=
  ⟨⟨by decide,
      c4_duplicate_parameter_errors.1 "op_demo" Category.query demoDupParams "timeout"
        ⟨"timeout", 10, ["Duration"], true, Option.none, ""⟩
        ⟨"timeout", 12, ["Duration"], true, Option.none, ""⟩ (by decide)⟩,
    by decide,
    c4_duplicate_parameter_errors.2 CatTemplates.Request (by decide)⟩

/-- C5: the boolean query parameter `local` of `cat.templates`, annotated
`@server_default false` with no override, is recorded in the IR with default
value exactly the boolean false, not absent and not a string; in general the
IR default is the parsed explicit annotation when one exists and none
otherwise. -/
theorem c5_bool_default_recorded :
    (findParam (normalize CatTemplates.Request) Category.query "local").map IRParam.defaultValue
        = Option.some (IRDefault.bool false)
      ∧ (∀ (c : Category) (p : RawParam),
          (normalizeParam c p).defaultValue = parseDefault p.serverDefault)
      ∧ parseDefault Option.none = IRDefault.none
      ∧ parseDefault (Option.some "false") = IRDefault.bool false :=
  ⟨by decide, fun c p => rfl, rfl, by decide⟩

/-- C6: the Normalizer marks a parameter required exactly when its declaration
carries no explicit optionality marker; on the corpus, `set_id`, `rule_id`,
`synonyms`, `messages` and `id` are required in the IR while `name`, `local`,
`master_timeout` and `timeout` are optional. -/
theorem c6_required_iff_unmarked :
    (∀ (c : Category) (p : RawParam),
        ((normalizeParam c p).required = true ↔ p.optional = false))
      ∧ (findParam (normalize SynonymsPutSynonymRule.Request) Category.path "set_id").map
          IRParam.required = Option.some true
      ∧ (findParam (normalize SynonymsPutSynonymRule.Request) Category.path "rule_id").map
          IRParam.required = Option.some true
      ∧ (findParam (normalize SynonymsPutSynonymRule.Request) Category.body "synonyms").map
          IRParam.required = Option.some true
      ∧ (findParam (normalize TextStructureFindMessageStructure.Request) Category.body "messages").map
          IRParam.required = Option.some true
      ∧ (findParam (normalize IngestDeleteIpLocationDatabase.Request) Category.path "id").map
          IRParam.required = Option.some true
      ∧ (findParam (normalize CatTemplates.Request) Category.path "name").map
          IRParam.required = Option.some false
      ∧ (findParam (normalize CatTemplates.Request) Category.query "local").map
          IRParam.required = Option.some false
      ∧ (findParam (normalize IngestDeleteIpLocationDatabase.Request) Category.query "master_timeout").map
          IRParam.required = Option.some false
      ∧ (findParam (normalize IngestDeleteIpLocationDatabase.Request) Category.query "timeout").map
          IRParam.required = Option.some false := by
  refine ⟨fun c p => ?_, by decide, by decide, by decide, by decide, by decide, by decide,
    by decide, by decide, by decide⟩
  cases h : p.optional <;> simp [normalizeParam, h]

/-- C7: the Metadata Extractor appends each availability tag to the
accumulated record list, never overwriting earlier records, and every
operation of the corpus ends up with at most one availability record per
flavor. -/
theorem c7_availability_accumulation :
    (∀ (m : Metadata) (tags : List Tag),
        (extractFrom m tags).availability = m.availability ++ availRecordsOf tags)
      ∧ ((extractMetadata SynonymsPutSynonymRule.Request.docTags).availability.map
            (fun r => parseFlavor r.flavorRaw)).Nodup
      ∧ ((extractMetadata TextStructureFindMessageStructure.Request.docTags).availability.map
            (fun r => parseFlavor r.flavorRaw)).Nodup
      ∧ ((extractMetadata IngestDeleteIpLocationDatabase.Request.docTags).availability.map
            (fun r => parseFlavor r.flavorRaw)).Nodup
      ∧ ((extractMetadata Mget.MultiGetRequest.docTags).availability.map
            (fun r => parseFlavor r.flavorRaw)).Nodup
      ∧ ((extractMetadata CatTemplates.Request.docTags).availability.map
            (fun r => parseFlavor r.flavorRaw)).Nodup :=
  ⟨extractFrom_availability, by decide, by decide, by decide, by decide, by decide⟩

/-- C8: documentation-tag lines with unrecognized markers (such as
`class_serializer` on the `mget` declaration) are ignored by the Metadata
Extractor: extraction yields the same metadata record with those lines removed,
and such lines never cause an error. -/
theorem c8_unrecognized_markers_ignored :
    (∀ (m : Metadata) (tags : List Tag),
        extractFrom m tags
          = extractFrom m (tags.filter (fun t => decide (t.marker ∈ recognizedMarkers))))
      ∧ decide ("class_serializer" ∈ recognizedMarkers) = false
      ∧ extractMetadata Mget.MultiGetRequest.docTags
          = extractMetadata (Mget.MultiGetRequest.docTags.filter
              (fun t => decide (t.marker ∈ recognizedMarkers)))
      ∧ (∀ (op : String) (m : Metadata) (tags : List Tag),
          metadataErrors op (extractFrom m tags)
            = metadataErrors op (extractFrom m (tags.filter
                (fun t => decide (t.marker ∈ recognizedMarkers))))) := by
  refine ⟨extractFrom_filter, by decide, ?_, fun op m tags => ?_⟩
  · exact extractFrom_filter initMetadata Mget.MultiGetRequest.docTags
  · rw [← extractFrom_filter]

/-- C9: the Emitter is a deterministic function of its IR and variant inputs:
its artifact does not depend on the state of the output sink, and emitting
twice in a row with the same IR and variant yields byte-identical output. -/
theorem c9_emitter_deterministic :
    ∀ (sink1 sink2 : List String) (ir : IR) (v : Variant),
      (emitTo sink1 ir v).2 = (emitTo sink2 ir v).2
        ∧ ((emitTo (emitTo sink1 ir v).1 ir v).2).data = ((emitTo sink1 ir v).2).data :=
  fun _ _ _ _ => ⟨rfl, rfl⟩

/-- C10: a declaration may omit any parameter section or mark it optional; the
Normalizer treats an absent section exactly as an empty parameter set, the
Validation Engine likewise, and the whole pipeline (normalize, extract,
validate, emit) succeeds on the all-optional `mget` declaration and on the
body-less `cat.templates` and `ingest.delete_ip_location_database`
declarations. -/
theorem c10_sections_optional_total :
    (∀ d : RawDecl, normalize { d with path_parts := ParamSection.absent }
        = normalize { d with path_parts := ParamSection.present true [] })
      ∧ (∀ d : RawDecl, normalize { d with query_parameters := ParamSection.absent }
        = normalize { d with query_parameters := ParamSection.present true [] })
      ∧ (∀ d : RawDecl, normalize { d with body := ParamSection.absent }
        = normalize { d with body := ParamSection.present true [] })
      ∧ (∀ (table : List (String × TypeDef)) (d : RawDecl),
          validateOp table { d with body := ParamSection.absent }
            = validateOp table { d with body := ParamSection.present true [] })
      ∧ (pipeline typeTable Mget.MultiGetRequest).isOk = true
      ∧ (pipeline typeTable CatTemplates.Request).isOk = true
      ∧ (pipeline typeTable IngestDeleteIpLocationDatabase.Request).isOk = true := by
  refine ⟨fun d => ?_, fun d => ?_, fun d => ?_, fun table d => ?_,
    by decide, by decide, by decide⟩ <;>
    simp [normalize, validateOp, opReferences, sectionParams]

end SchemaCompiler
